import Mathlib

/-!
Verification of the CallSpamDetector fraud-detection core against its
natural-language specification.

The Python source is shallowly embedded: text is `List Char`, Python floats
are modelled as exact rationals (`ℚ`), Python dictionaries with possibly
missing keys are records with `Option ℚ` fields read through `Option.getD 0`
(the semantics of `dict.get(key, 0)`).  Every definition is translated from
the source files (`src/audio/audio_analyzer.py`, `src/core/call_detector.py`,
`src/ml/llm_analyzer.py`, `src/ml/conversation_analyzer.py`, `config.py`);
definitions written from the specification text instead (for refinement
comparisons) say so in their doc comment.
-/

/-! ## Text primitives (Python `str` operations used by the analyzers) -/

/-- A string literal as a list of characters. -/
def s2c (s : String) : List Char := s.data

/-- The apostrophe character (several configured phrases contain it). -/
def apos : Char := Char.ofNat 39

/-- ASCII lower-casing of one character, the effect of Python `str.lower`
on the ASCII texts handled here. -/
def py_lower (c : Char) : Char :=
  if 'A' ≤ c ∧ c ≤ 'Z' then Char.ofNat (c.toNat + 32) else c

/-- Lower-case a whole text (`transcription.lower()`). -/
def lower_str (t : List Char) : List Char := t.map py_lower

/-- ASCII whitespace, the characters stripped by Python `str.strip()` and
matched by the regex class `\s` on ASCII input. -/
def is_space (c : Char) : Bool :=
  c = ' ' || c = '\t' || c = '\n' || c = '\r' || c = Char.ofNat 11 || c = Char.ofNat 12

/-- Python `str.strip()`: drop leading and trailing whitespace. -/
def py_strip (t : List Char) : List Char :=
  ((t.dropWhile is_space).reverse.dropWhile is_space).reverse

/-- Python substring containment `needle in hay`: a prefix at some
position. -/
def is_sub (needle : List Char) : List Char → Bool
  | [] => needle.isPrefixOf []
  | c :: tl => needle.isPrefixOf (c :: tl) || is_sub needle tl

/-- Count how many words of `ws` occur as substrings of `hay`
(`sum(1 for word in ws if word in hay)`). -/
def count_subs (ws : List (List Char)) (hay : List Char) : ℕ :=
  (ws.filter (fun w => is_sub w hay)).length

/-! ## Configuration (`config.py`) -/

/-- `Config.SAMPLE_RATE` (samples per second). -/
def SAMPLE_RATE : ℕ := 16000

/-- `Config.RECORDING_DURATION` (seconds, commented "5 minutes max"). -/
def RECORDING_DURATION : ℕ := 300

/-- `Config.KEYWORD_WEIGHT`. -/
def KEYWORD_WEIGHT : ℚ := 0.3

/-- `Config.PHRASE_WEIGHT`. -/
def PHRASE_WEIGHT : ℚ := 0.4

/-- `Config.EMOTIONAL_WEIGHT`. -/
def EMOTIONAL_WEIGHT : ℚ := 0.2

/-- `Config.RISK_THRESHOLD` (used by the ConversationAnalyzer verdict). -/
def RISK_THRESHOLD : ℚ := 0.6

/-- `Config.MEDIUM_RISK_THRESHOLD`. -/
def MEDIUM_RISK_THRESHOLD : ℚ := 0.6

/-- `Config.HIGH_RISK_THRESHOLD`. -/
def HIGH_RISK_THRESHOLD : ℚ := 0.8

/-- `Config.FRAUD_KEYWORDS`. -/
def FRAUD_KEYWORDS : List (List Char) :=
  [s2c "bank account", s2c "credit card", s2c "social security", s2c "urgent",
   s2c "verify", s2c "suspended", s2c "expired", s2c "immediate action",
   s2c "press 1", s2c "call back", s2c "refund", s2c "prize", s2c "winner",
   s2c "congratulations", s2c "free", s2c "limited time", s2c "act now",
   s2c "final notice", s2c "you" ++ [apos] ++ s2c "ve been selected",
   s2c "confirm your identity", s2c "IRS", s2c "tax", s2c "arrest",
   s2c "lawsuit", s2c "police", s2c "FBI", s2c "government"]

/-- `Config.SUSPICIOUS_PHRASES`. -/
def SUSPICIOUS_PHRASES : List (List Char) :=
  [s2c "don" ++ [apos] ++ s2c "t tell anyone", s2c "keep this confidential",
   s2c "this offer expires", s2c "you must act immediately",
   s2c "your account will be closed", s2c "we need to verify",
   s2c "for security purposes", s2c "this is your final warning",
   s2c "you have been selected", s2c "congratulations you" ++ [apos] ++ s2c "ve won",
   s2c "claim your prize", s2c "send money", s2c "wire transfer",
   s2c "gift cards", s2c "bitcoin", s2c "cryptocurrency"]

/-- `Config.EMOTIONAL_TRIGGERS`. -/
def EMOTIONAL_TRIGGERS : List (List Char) :=
  [s2c "urgent", s2c "emergency", s2c "immediately", s2c "now", s2c "quickly",
   s2c "hurry", s2c "deadline", s2c "expires", s2c "last chance", s2c "final",
   s2c "limited time", s2c "don" ++ [apos] ++ s2c "t miss out", s2c "act fast",
   s2c "time sensitive"]

/-! ## AudioAnalyzer (`src/audio/audio_analyzer.py`)

Feature bundles are dictionaries of sub-dictionaries; a sub-analysis that
fails returns an empty dictionary, and `calculate_audio_risk_score` reads
every key through `.get(key, 0)`.  Each sub-dictionary is therefore a record
of `Option ℚ` fields (`none` = key absent). -/

/-- `_extract_volume_features` result keys. -/
structure VolumeStats where
  rms_energy : Option ℚ
  peak_amplitude : Option ℚ
  dynamic_range : Option ℚ
  zero_crossing_rate : Option ℚ
  mean_amplitude : Option ℚ
  std_amplitude : Option ℚ
deriving DecidableEq

/-- `_extract_frequency_features` result keys. -/
structure FrequencyStats where
  spectral_centroid : Option ℚ
  spectral_bandwidth : Option ℚ
  spectral_rolloff : Option ℚ
  dominant_frequency : Option ℚ
deriving DecidableEq

/-- `_extract_voice_quality_features` result keys. -/
structure VoiceQuality where
  fundamental_frequency : Option ℚ
  jitter : Option ℚ
  shimmer : Option ℚ
  hnr : Option ℚ
deriving DecidableEq

/-- `_extract_temporal_features` result keys. -/
structure TemporalFeatures where
  speech_rate : Option ℚ
  pause_ratio : Option ℚ
deriving DecidableEq

/-- The bundle returned by `AudioAnalyzer.extract_features`. -/
structure AudioFeatures where
  volume_stats : VolumeStats
  frequency_stats : FrequencyStats
  voice_quality : VoiceQuality
  temporal_features : TemporalFeatures
  duration : ℚ
deriving DecidableEq

/-- `AudioAnalyzer._empty_features`: every sub-dictionary empty, duration 0. -/
def empty_features : AudioFeatures :=
  { volume_stats := ⟨none, none, none, none, none, none⟩
    frequency_stats := ⟨none, none, none, none⟩
    voice_quality := ⟨none, none, none, none⟩
    temporal_features := ⟨none, none⟩
    duration := 0 }

/-- Python `min(x, y)` on two numbers. -/
def py_min (x y : ℚ) : ℚ := if x ≤ y then x else y

/-- Trigger row `rms < 0.01 or rms > 0.8` (weight 0.2). -/
def trig_rms (rms : ℚ) : Bool := rms < 0.01 || rms > 0.8

/-- Trigger row `dynamic_range < 0.1 or dynamic_range > 0.9` (weight 0.15). -/
def trig_dynamic_range (dynamic_range : ℚ) : Bool :=
  dynamic_range < 0.1 || dynamic_range > 0.9

/-- Trigger row `spectral_centroid < 500 or spectral_centroid > 4000`
(weight 0.1). -/
def trig_spectral_centroid (spectral_centroid : ℚ) : Bool :=
  spectral_centroid < 500 || spectral_centroid > 4000

/-- Trigger row `jitter > 0.02` (weight 0.15). -/
def trig_jitter (jitter : ℚ) : Bool := jitter > 0.02

/-- Trigger row `shimmer > 0.1` (weight 0.15). -/
def trig_shimmer (shimmer : ℚ) : Bool := shimmer > 0.1

/-- Trigger row `hnr < 10` (weight 0.1). -/
def trig_hnr (hnr : ℚ) : Bool := hnr < 10

/-- Trigger row `speech_rate > 8 or speech_rate < 1` (weight 0.1). -/
def trig_speech_rate (speech_rate : ℚ) : Bool := speech_rate > 8 || speech_rate < 1

/-- Trigger row `pause_ratio > 0.4` (weight 0.1). -/
def trig_pause_ratio (pause_ratio : ℚ) : Bool := pause_ratio > 0.4

/-- The `risk_factors` list built by `calculate_audio_risk_score`
(appends in source order; every `.get(key, 0)` default is materialised by
`Option.getD 0`). -/
def audio_risk_factors (features : AudioFeatures) : List ℚ :=
  (if trig_rms (features.volume_stats.rms_energy.getD 0) then [0.2] else []) ++
  (if trig_dynamic_range (features.volume_stats.dynamic_range.getD 0) then [0.15] else []) ++
  (if trig_spectral_centroid (features.frequency_stats.spectral_centroid.getD 0) then [0.1] else []) ++
  (if trig_jitter (features.voice_quality.jitter.getD 0) then [0.15] else []) ++
  (if trig_shimmer (features.voice_quality.shimmer.getD 0) then [0.15] else []) ++
  (if trig_hnr (features.voice_quality.hnr.getD 0) then [0.1] else []) ++
  (if trig_speech_rate (features.temporal_features.speech_rate.getD 0) then [0.1] else []) ++
  (if trig_pause_ratio (features.temporal_features.pause_ratio.getD 0) then [0.1] else [])

/-- `AudioAnalyzer.calculate_audio_risk_score`, lines 278-346: return 0 when
no risk factor triggered, otherwise the clamped sum
`min(sum(risk_factors), 1.0)`. -/
def calculate_audio_risk_score (features : AudioFeatures) : ℚ :=
  if (audio_risk_factors features).isEmpty then 0
  else py_min (audio_risk_factors features).sum 1

/-- `AudioAnalyzer.extract_features`, lines 21-52.  Only the empty-input
guard is modelled concretely; the non-empty path computes irrational
statistics (FFT magnitudes, square roots) that have no exact rational
embedding, so it is kept as an explicit parameter.  No claim exercises the
non-empty path. -/
def extract_features (nonempty_path : List ℚ → ℕ → AudioFeatures)
    (audio_data : List ℚ) (sample_rate : ℕ) : AudioFeatures :=
  if audio_data.isEmpty then empty_features else nonempty_path audio_data sample_rate

/-- Specification-side restatement of the §4.1 trigger table: the sum of the
fixed weights of the triggered factors (to be compared with the
list-building code of `calculate_audio_risk_score`). -/
def audio_weighted_sum (features : AudioFeatures) : ℚ :=
  (if trig_rms (features.volume_stats.rms_energy.getD 0) then (0.2 : ℚ) else 0) +
  (if trig_dynamic_range (features.volume_stats.dynamic_range.getD 0) then (0.15 : ℚ) else 0) +
  (if trig_spectral_centroid (features.frequency_stats.spectral_centroid.getD 0) then (0.1 : ℚ) else 0) +
  (if trig_jitter (features.voice_quality.jitter.getD 0) then (0.15 : ℚ) else 0) +
  (if trig_shimmer (features.voice_quality.shimmer.getD 0) then (0.15 : ℚ) else 0) +
  (if trig_hnr (features.voice_quality.hnr.getD 0) then (0.1 : ℚ) else 0) +
  (if trig_speech_rate (features.temporal_features.speech_rate.getD 0) then (0.1 : ℚ) else 0) +
  (if trig_pause_ratio (features.temporal_features.pause_ratio.getD 0) then (0.1 : ℚ) else 0)

/-- No row of the §4.1 trigger table fires on the bundle. -/
def no_trigger (features : AudioFeatures) : Bool :=
  !trig_rms (features.volume_stats.rms_energy.getD 0) &&
  !trig_dynamic_range (features.volume_stats.dynamic_range.getD 0) &&
  !trig_spectral_centroid (features.frequency_stats.spectral_centroid.getD 0) &&
  !trig_jitter (features.voice_quality.jitter.getD 0) &&
  !trig_shimmer (features.voice_quality.shimmer.getD 0) &&
  !trig_hnr (features.voice_quality.hnr.getD 0) &&
  !trig_speech_rate (features.temporal_features.speech_rate.getD 0) &&
  !trig_pause_ratio (features.temporal_features.pause_ratio.getD 0)

/-! ## CallDetectionService (`src/core/call_detector.py`)

`_real_time_processing` loops while recording: it extends the session audio
buffer with each arriving chunk and hands the per-tick fused risk to
`_handle_real_time_result`, which logs a high-risk alert whenever the fused
risk strictly exceeds the configured high-risk threshold.  The buffer and the
alert decision are modelled as pure functions of the arrival sequence. -/

/-- One buffer step of `_real_time_processing`, line 134:
`self.audio_buffer.extend(audio_chunk)`. -/
def append_chunk (buf chunk : List ℚ) : List ℚ := buf ++ chunk

/-- The session buffer after a whole recording: `start_call_recording` resets
`audio_buffer = []` (line 104) and every chunk is appended in arrival
order. -/
def run_chunks (chunks : List (List ℚ)) : List ℚ :=
  chunks.foldl append_chunk []

/-- `Modelled from the spec:` the buffer cap claimed in §3/§8 — the number of
samples in the configured maximum duration, `RECORDING_DURATION` seconds at
`SAMPLE_RATE` samples per second.  `call_detector.py` never enforces any
cap, so this quantity appears only in `config.py`. -/
def buffer_cap : ℕ := RECORDING_DURATION * SAMPLE_RATE

/-- The alert condition of `_handle_real_time_result`, line 163:
`combined_risk > self.config.HIGH_RISK_THRESHOLD` (the threshold is the
injected configuration value, default `HIGH_RISK_THRESHOLD = 0.8`). -/
def alert_fires (threshold combined_risk : ℚ) : Bool :=
  combined_risk > threshold

/-- Number of alerts logged over a sequence of per-tick fused risk values:
the `while self.is_recording` loop runs `_handle_real_time_result` once per
tick, with no state carried between ticks. -/
def process_ticks (threshold : ℚ) : List ℚ → ℕ
  | [] => 0
  | r :: rest => (if alert_fires threshold r then 1 else 0) + process_ticks threshold rest

/-- `Modelled from the spec:` the edge-triggered alert counter of §4.4 — an
alert fires only on a transition from below the threshold to at-or-above it,
tracking whether the previous tick was already above threshold.  Used solely
to compare the specified policy with `process_ticks`. -/
def edge_alert_count (threshold : ℚ) : List ℚ → Bool → ℕ
  | [], _ => 0
  | r :: rest, prev_above =>
    let above : Bool := threshold ≤ r
    (if above && !prev_above then 1 else 0) + edge_alert_count threshold rest above

/-- The final verdict of `_process_final_results`, line 188:
`is_fraud = final_risk > self.config.MEDIUM_RISK_THRESHOLD` (strict,
threshold injected from configuration, default 0.6). -/
def is_fraud (final_risk threshold : ℚ) : Bool :=
  final_risk > threshold

/-- The per-tick and final fused risk, lines 158 and 187:
`(conversation_risk + audio_risk) / 2`. -/
def fused_risk (conversation_risk audio_risk : ℚ) : ℚ :=
  (conversation_risk + audio_risk) / 2

/-! ## LLMAnalyzer (`src/ml/llm_analyzer.py`)

`analyze_conversation` combines a rule-based pass over the configured
keyword/phrase/trigger tables with an optional sentiment-classifier pass
(the external oracle).  The regex pattern detectors
(`_detect_urgency_patterns`, `_detect_financial_patterns`,
`_detect_verification_patterns`) only populate diagnostic lists that are
passed through to the output and never read by any risk or verdict
computation, so they are not modelled. -/

/-- The fields of `_rule_based_analysis` that are consumed downstream. -/
structure RuleAnalysis where
  keyword_matches : List (List Char)
  phrase_matches : List (List Char)
  emotional_triggers : List (List Char)
  rule_risk_score : ℚ
  keyword_count : ℕ
  phrase_count : ℕ
  trigger_count : ℕ
deriving DecidableEq

/-- The keyword matches of `_rule_based_analysis`, lines 80-83:
`keyword.lower() in transcription_lower`. -/
def keyword_matches_of (transcription : List Char) : List (List Char) :=
  FRAUD_KEYWORDS.filter (fun kw => is_sub (lower_str kw) (lower_str transcription))

/-- The suspicious-phrase matches of `_rule_based_analysis`, lines 86-89. -/
def phrase_matches_of (transcription : List Char) : List (List Char) :=
  SUSPICIOUS_PHRASES.filter (fun ph => is_sub (lower_str ph) (lower_str transcription))

/-- The emotional-trigger matches of `_rule_based_analysis`, lines 92-95. -/
def trigger_matches_of (transcription : List Char) : List (List Char) :=
  EMOTIONAL_TRIGGERS.filter (fun tr => is_sub (lower_str tr) (lower_str transcription))

/-- `LLMAnalyzer._rule_based_analysis`, lines 75-120: match the three
configured tables case-insensitively and set
`rule_risk = min(keyword_score + phrase_score + emotional_score, 1.0)`. -/
def rule_based_analysis (transcription : List Char) : RuleAnalysis :=
  let keyword_matches := keyword_matches_of transcription
  let phrase_matches := phrase_matches_of transcription
  let emotional_triggers := trigger_matches_of transcription
  { keyword_matches := keyword_matches
    phrase_matches := phrase_matches
    emotional_triggers := emotional_triggers
    rule_risk_score :=
      py_min (keyword_matches.length * KEYWORD_WEIGHT +
        phrase_matches.length * PHRASE_WEIGHT +
        emotional_triggers.length * EMOTIONAL_WEIGHT) 1
    keyword_count := keyword_matches.length
    phrase_count := phrase_matches.length
    trigger_count := emotional_triggers.length }

/-- The fields of `_ml_based_analysis` that are consumed downstream. -/
structure MLAnalysis where
  ml_risk_score : ℚ
  sentiment : List Char
  confidence : ℚ
deriving DecidableEq

/-- `_ml_based_analysis` when the classifier is unavailable, line 125 (the
same neutral value is returned on classifier errors, line 156). -/
def ml_unavailable : MLAnalysis :=
  { ml_risk_score := 0, sentiment := s2c "neutral", confidence := 0 }

/-- `_ml_based_analysis` when the classifier returned `(label, score)`,
lines 137-152: high-confidence negative sentiment scales to `score * 0.6`,
overly positive sentiment to `score * 0.3`, otherwise risk 0. -/
def ml_based_analysis (label : List Char) (score : ℚ) : MLAnalysis :=
  let sentiment := lower_str label
  let ml_risk : ℚ :=
    if sentiment = s2c "negative" && score > 0.7 then score * 0.6
    else if sentiment = s2c "positive" && score > 0.8 then score * 0.3
    else 0
  { ml_risk_score := ml_risk, sentiment := sentiment, confidence := score }

/-- The fields of `_combine_analyses` that the claims consult (the
`reasoning` string and the diagnostic pass-through lists are omitted). -/
structure CombinedAnalysis where
  risk_score : ℚ
  is_suspicious : Bool
  confidence : ℚ
  detected_keywords : List (List Char)
  detected_phrases : List (List Char)
deriving DecidableEq

/-- `LLMAnalyzer._combine_analyses`, lines 167-198:
`combined = rule_risk * 0.7 + ml_risk * 0.3`; suspicious when the combined
risk strictly exceeds `MEDIUM_RISK_THRESHOLD` or at least 3 keywords or at
least 2 phrases matched; `confidence = min(combined + 0.1, 1.0)`. -/
def combine_analyses (rule : RuleAnalysis) (ml : MLAnalysis) : CombinedAnalysis :=
  let combined_risk := rule.rule_risk_score * 0.7 + ml.ml_risk_score * 0.3
  { risk_score := combined_risk
    is_suspicious :=
      combined_risk > MEDIUM_RISK_THRESHOLD || rule.keyword_count ≥ 3 ||
        rule.phrase_count ≥ 2
    confidence := py_min (combined_risk + 0.1) 1
    detected_keywords := rule.keyword_matches
    detected_phrases := rule.phrase_matches }

/-! ## ConversationAnalyzer (`src/ml/conversation_analyzer.py`)

`_split_conversation` first probes the lowered transcript with the two
speaker-label regexes

  `(caller|agent|representative):\s*(.*?)(?=victim:|$)`
  `(victim|customer|user):\s*(.*?)(?=caller:|agent:|representative:|$)`

and, when neither matches anywhere, falls back to splitting on sentence
terminators and alternating speakers.  The two concrete patterns are
embedded directly: a label followed by a colon, a greedy whitespace run,
then a lazy capture of non-newline characters up to the first position
where a lookahead alternative (one of the stop labels, or `$` = end of
string or a single final newline) succeeds.  Because the whitespace run
contains no stop label and a newline inside it fails the capture from any
shorter run as well, the greedy/backtracking behaviour of `\s*` collapses
to the straight greedy scan used here.  `find_all` mirrors `re.finditer`:
scan left to right and resume after each match; the fuel argument only
bounds the recursion and `s.length` is always enough, since every step
consumes at least one character (`find_all_fuel_eq` proves the fuel is
irrelevant beyond that bound). -/

/-- Group 1 of the caller-side pattern. -/
def caller_labels : List (List Char) := [s2c "caller", s2c "agent", s2c "representative"]

/-- Group 1 of the victim-side pattern. -/
def victim_labels : List (List Char) := [s2c "victim", s2c "customer", s2c "user"]

/-- The lookahead alternatives of the caller-side pattern (before `$`). -/
def caller_stops : List (List Char) := [s2c "victim:"]

/-- The lookahead alternatives of the victim-side pattern (before `$`). -/
def victim_stops : List (List Char) :=
  [s2c "caller:", s2c "agent:", s2c "representative:"]

/-- The `$` anchor of `re` without MULTILINE: end of string, or just before
one final newline. -/
def dollar_ok (rest : List Char) : Bool := rest.isEmpty || rest = ['\n']

/-- Does the lookahead `(?=stop1|...|$)` succeed at this position? -/
def stop_here (stops : List (List Char)) (rest : List Char) : Bool :=
  stops.any (fun stop => stop.isPrefixOf rest) || dollar_ok rest

/-- The lazy capture `(.*?)` before the lookahead: consume non-newline
characters until the first position where the lookahead succeeds; fail on a
newline (`.` does not match it) reached before any such position. -/
def capture_until (stops : List (List Char)) : List Char → Option (List Char × List Char)
  | [] => if stop_here stops [] then some ([], []) else none
  | c :: cs =>
    if stop_here stops (c :: cs) then some ([], c :: cs)
    else if c = '\n' then none
    else (capture_until stops cs).map fun p => (c :: p.1, p.2)

/-- Try the full pattern at the current position: one of the label
alternatives (in pattern order, falling through on failure exactly as the
regex engine backtracks), a colon, greedy `\s*`, then the lazy capture.
Returns the label, the capture and the unconsumed rest of the text. -/
def match_label_at (stops : List (List Char)) : List (List Char) → List Char →
    Option (List Char × List Char × List Char)
  | [], _ => none
  | lab :: labs, s =>
    if (lab ++ [':']).isPrefixOf s then
      match capture_until stops ((s.drop (lab.length + 1)).dropWhile is_space) with
      | some (cap, rest) => some (lab, cap, rest)
      | none => match_label_at stops labs s
    else match_label_at stops labs s

/-- `re.finditer`: scan positions left to right, resume after each match.
The fuel bounds the recursion; `s.length` is always sufficient. -/
def find_all_fuel (labels stops : List (List Char)) : ℕ → List Char → List (List Char × List Char)
  | 0, _ => []
  | _ + 1, [] => []
  | fuel + 1, c :: cs =>
    match match_label_at stops labels (c :: cs) with
    | some (lab, cap, rest) => (lab, cap) :: find_all_fuel labels stops fuel rest
    | none => find_all_fuel labels stops fuel cs

/-- All matches of one speaker pattern over the text. -/
def find_all (labels stops : List (List Char)) (s : List Char) : List (List Char × List Char) :=
  find_all_fuel labels stops s.length s

/-- Line 107: `any(re.search(pattern, transcription.lower()) for pattern in
speaker_patterns)` — some position matches one of the two patterns. -/
def has_labels (low : List Char) : Bool :=
  !(find_all caller_labels caller_stops low).isEmpty ||
    !(find_all victim_labels victim_stops low).isEmpty

/-- A sentence terminator of the split class `[.!?]+`. -/
def is_term (c : Char) : Bool := c = '.' || c = '!' || c = '?'

/-- `re.split` on the terminator class `[.!?]+`: split on maximal terminator runs; a leading
run yields a leading empty piece and a trailing run a trailing one. -/
def split_sentences : List Char → List (List Char)
  | [] => [[]]
  | c :: cs =>
    let r := split_sentences cs
    if is_term c then
      match cs with
      | c2 :: _ => if is_term c2 then r else [] :: r
      | [] => [] :: r
    else
      match r with
      | [] => [[c]]
      | p :: ps => (c :: p) :: ps

/-- One conversation turn: the dictionary keys `speaker`, `text` and `turn_number`. -/
structure Turn where
  speaker : List Char
  text : List Char
  turn_number : ℕ
deriving DecidableEq

/-- The no-label fallback of `_split_conversation`, lines 108-116: walk the
sentence pieces with their enumeration index `i`, keep pieces with
non-empty strip, speaker `caller` on even `i` and `victim` on odd `i`,
`turn_number = i + 1`. -/
def alternating_turns : ℕ → List (List Char) → List Turn
  | _, [] => []
  | i, sentence :: rest =>
    if (py_strip sentence).isEmpty then alternating_turns (i + 1) rest
    else
      { speaker := if i % 2 = 0 then s2c "caller" else s2c "victim"
        text := py_strip sentence
        turn_number := i + 1 } :: alternating_turns (i + 1) rest

/-- The labeled branch of `_split_conversation`, lines 118-129: append one
turn per match with non-empty stripped capture, numbering them
`len(turns) + 1` as they are appended (the label matched in the lowered
text is the speaker; `.lower()` on it is the identity). -/
def append_labeled_turns : List (List Char × List Char) → List Turn → List Turn
  | [], acc => acc
  | (lab, cap) :: rest, acc =>
    let text := py_strip cap
    if text.isEmpty then append_labeled_turns rest acc
    else
      append_labeled_turns rest
        (acc ++ [{ speaker := lab, text := text, turn_number := acc.length + 1 }])

/-- Stable insertion into a list sorted by `turn_number`. -/
def insert_by_number (t : Turn) : List Turn → List Turn
  | [] => [t]
  | u :: us =>
    if u.turn_number ≤ t.turn_number then u :: insert_by_number t us else t :: u :: us

/-- Line 131: `sorted` by the `turn_number` key (a stable
sort; insertion keeps earlier elements with equal keys in front). -/
def sort_by_number : List Turn → List Turn
  | [] => []
  | t :: ts => insert_by_number t (sort_by_number ts)

/-- `ConversationAnalyzer._split_conversation`, lines 96-131. -/
def split_conversation (transcription : List Char) : List Turn :=
  let low := lower_str transcription
  if !has_labels low then
    sort_by_number (alternating_turns 0 (split_sentences transcription))
  else
    sort_by_number
      (append_labeled_turns (find_all victim_labels victim_stops low)
        (append_labeled_turns (find_all caller_labels caller_stops low) []))

/-- `self.caller_pressure_words`. -/
def caller_pressure_words : List (List Char) :=
  [s2c "you must", s2c "you need to", s2c "required by law", s2c "immediately",
   s2c "urgent", s2c "now", s2c "quickly", s2c "press 1",
   s2c "don" ++ [apos] ++ s2c "t hang up"]

/-- `self.victim_confusion_words`. -/
def victim_confusion_words : List (List Char) :=
  [s2c "what?", s2c "i don" ++ [apos] ++ s2c "t understand", s2c "why?",
   s2c "i didn" ++ [apos] ++ s2c "t know", s2c "really?", s2c "are you sure?",
   s2c "i" ++ [apos] ++ s2c "m confused", s2c "wait"]

/-- `self.fraud_tactics`. -/
def fraud_tactics : List (List Char) :=
  [s2c "account suspended", s2c "verify immediately", s2c "final notice",
   s2c "act now or", s2c "limited time", s2c "don" ++ [apos] ++ s2c "t tell anyone",
   s2c "this is confidential", s2c "for security purposes"]

/-- Turns whose speaker contains `caller` as a substring, lowered first;
note an `agent` or `representative` turn is in neither group). -/
def caller_turns_of (turns : List Turn) : List Turn :=
  turns.filter (fun t => is_sub (s2c "caller") (lower_str t.speaker))

/-- Turns whose speaker contains `victim`. -/
def victim_turns_of (turns : List Turn) : List Turn :=
  turns.filter (fun t => is_sub (s2c "victim") (lower_str t.speaker))

/-- The consumed fields of `_analyze_conversation_flow` (the
`caller_dominance` and `total_turns` entries are never read downstream). -/
structure FlowAnalysis where
  flow_type : List Char
  pressure_escalation : Bool
deriving DecidableEq

/-- `_analyze_conversation_flow`, lines 133-163.  The dominance test
`len(caller_turns) > len(victim_turns) * 1.5` is written over naturals as
`2 * caller > 3 * victim`; `flow_dominance_equiv` below certifies the two
are the same comparison. -/
def analyze_conversation_flow (turns : List Turn) : FlowAnalysis :=
  if turns.isEmpty then { flow_type := s2c "unknown", pressure_escalation := false }
  else
    let caller_turns := caller_turns_of turns
    let victim_turns := victim_turns_of turns
    let pressure_escalation : Bool :=
      if caller_turns.length > 1 then
        count_subs caller_pressure_words
            (lower_str ((caller_turns.getLast?.map Turn.text).getD [])) >
          count_subs caller_pressure_words
            (lower_str ((caller_turns.head?.map Turn.text).getD []))
      else false
    let joined := lower_str (List.intercalate [' '] (caller_turns.map Turn.text))
    let flow_type : List Char :=
      if 2 * caller_turns.length > 3 * victim_turns.length then s2c "caller_dominant"
      else if fraud_tactics.any (fun w => is_sub w joined) then s2c "suspicious_pattern"
      else s2c "normal"
    { flow_type := flow_type, pressure_escalation := pressure_escalation }

/-- The natural-number form of the dominance test used above agrees with the
float comparison of line 152. -/
theorem flow_dominance_equiv (ca cv : ℕ) :
    (2 * ca > 3 * cv) ↔ ((ca : ℚ) > (cv : ℚ) * 1.5) := by
  rw [show (1.5 : ℚ) = 3 / 2 by norm_num]
  constructor
  · intro h
    have h2 : ((3 * cv : ℕ) : ℚ) < ((2 * ca : ℕ) : ℚ) := by exact_mod_cast h
    push_cast at h2
    rw [gt_iff_lt]
    linarith
  · intro h
    rw [gt_iff_lt] at h
    have h2 : (3 : ℚ) * (cv : ℚ) < 2 * (ca : ℚ) := by linarith
    have h3 : ((3 * cv : ℕ) : ℚ) < ((2 * ca : ℕ) : ℚ) := by push_cast; linarith
    exact_mod_cast h3

/-- Total pressure/confusion hits over a list of turns, lines 171-182:
`sum(1 for word in words if word in turn_text_lower)` summed over turns. -/
def pressure_hits (turns : List Turn) (words : List (List Char)) : ℕ :=
  (turns.map (fun t => count_subs words (lower_str t.text))).sum

/-- `min(hits / max(n_turns, 1), 1.0)` — the clamped per-turn ratio of
lines 185-186 (the `max` is taken over the integers, as in the source). -/
def behavior_score (hits nturns : ℕ) : ℚ :=
  py_min ((hits : ℚ) / ((max nturns 1 : ℕ) : ℚ)) 1

/-- The consumed fields of `_analyze_speaker_behaviors` (the
`caller_turn_ratio` entry is never read downstream). -/
structure SpeakerAnalysis where
  caller_pressure : ℚ
  victim_confusion : ℚ
deriving DecidableEq

/-- `_analyze_speaker_behaviors`, lines 165-188. -/
def analyze_speaker_behaviors (turns : List Turn) : SpeakerAnalysis :=
  let caller_turns := caller_turns_of turns
  let victim_turns := victim_turns_of turns
  { caller_pressure :=
      behavior_score (pressure_hits caller_turns caller_pressure_words) caller_turns.length
    victim_confusion :=
      behavior_score (pressure_hits victim_turns victim_confusion_words) victim_turns.length }

/-- The urgency word set of `_detect_fraud_indicators`, line 205. -/
def urgency_words : List (List Char) :=
  [s2c "urgent", s2c "immediate", s2c "now", s2c "quickly"]

/-- The result of `_detect_fraud_indicators`. -/
structure FraudIndicators where
  keywords : List (List Char)
  phrases : List (List Char)
  tactics_count : ℕ
  urgency_indicators : ℕ
deriving DecidableEq

/-- `_detect_fraud_indicators`, lines 190-207: case-insensitive substring
matches over the full transcript (its `turns` parameter is unused in the
source and omitted here). -/
def detect_fraud_indicators (full_text : List Char) : FraudIndicators :=
  let text_lower := lower_str full_text
  { keywords := FRAUD_KEYWORDS.filter (fun kw => is_sub (lower_str kw) text_lower)
    phrases := SUSPICIOUS_PHRASES.filter (fun ph => is_sub (lower_str ph) text_lower)
    tactics_count := (fraud_tactics.filter (fun ta => is_sub (lower_str ta) text_lower)).length
    urgency_indicators := count_subs urgency_words text_lower }

/-- `_calculate_conversation_risk_score`, lines 209-233. -/
def conversation_risk_score (flow : FlowAnalysis) (speaker : SpeakerAnalysis)
    (ind : FraudIndicators) : ℚ :=
  py_min
    ((if flow.flow_type = s2c "suspicious_pattern" then (0.3 : ℚ)
      else if flow.flow_type = s2c "caller_dominant" then 0.15 else 0) +
      (if flow.pressure_escalation then (0.1 : ℚ) else 0) +
      speaker.caller_pressure * 0.2 + speaker.victim_confusion * 0.2 +
      (ind.keywords.length : ℚ) * 0.05 + (ind.phrases.length : ℚ) * 0.08 +
      (ind.tactics_count : ℚ) * 0.1 + (ind.urgency_indicators : ℚ) * 0.02) 1

/-- `_calculate_confidence`, lines 270-284: base 0.6, turn-count bonus,
evidence bonus, clamped to 1. -/
def calculate_confidence (turns : List Turn) (ind : FraudIndicators) : ℚ :=
  py_min
    ((0.6 : ℚ) +
      (if turns.length > 4 then (0.2 : ℚ) else if turns.length > 2 then 0.1 else 0) +
      (if !ind.keywords.isEmpty || !ind.phrases.isEmpty then (0.2 : ℚ) else 0)) 1

/-- Decimal rendering of a natural number (Python `f"{n}"`). -/
def fmt_nat (n : ℕ) : List Char := (Nat.repr n).data

/-- Two-decimal rendering `f"{x:.2f}"` of a non-negative score, rounding
half up on the exact model value (Python formats the nearest binary double
instead; no claim consults the rendered string, which only feeds the
human-readable reasoning text). -/
def fmt2 (x : ℚ) : List Char :=
  let n : ℕ := (Int.floor (x * 100 + 1 / 2)).toNat
  fmt_nat (n / 100) ++ s2c "." ++
    (if n % 100 < 10 then s2c "0" else []) ++ fmt_nat (n % 100)

/-- `_generate_conversation_reasoning`, lines 235-268: one clause per
triggered condition, a closing risk-tier clause, joined by `"; "`. -/
def generate_conversation_reasoning (flow : FlowAnalysis) (speaker : SpeakerAnalysis)
    (ind : FraudIndicators) (risk_score : ℚ) : List Char :=
  let reasons : List (List Char) :=
    List.flatten
      [(if flow.flow_type = s2c "suspicious_pattern"
        then [s2c "Suspicious conversation pattern detected"] else []),
       (if flow.pressure_escalation
        then [s2c "Caller pressure escalated during conversation"] else []),
       (if speaker.caller_pressure > 0.5
        then [s2c "High caller pressure level (" ++ fmt2 speaker.caller_pressure ++ s2c ")"]
        else []),
       (if speaker.victim_confusion > 0.3
        then [s2c "Victim confusion indicators (" ++ fmt2 speaker.victim_confusion ++ s2c ")"]
        else []),
       (if !ind.keywords.isEmpty
        then [s2c "Fraud keywords: " ++ List.intercalate (s2c ", ") (ind.keywords.take 3)]
        else []),
       (if !ind.phrases.isEmpty
        then [s2c "Suspicious phrases: " ++ List.intercalate (s2c ", ") (ind.phrases.take 2)]
        else []),
       (if ind.tactics_count > 0
        then [fmt_nat ind.tactics_count ++ s2c " fraud tactics detected"] else []),
       [if risk_score > 0.7 then s2c "HIGH RISK: Multiple fraud indicators present"
        else if risk_score > 0.4 then s2c "MEDIUM RISK: Some suspicious patterns detected"
        else s2c "LOW RISK: Conversation appears normal"]]
  if !reasons.isEmpty then List.intercalate (s2c "; ") reasons
  else s2c "No specific indicators detected"

/-- The `conversation_analysis` sub-dictionary of the success result. -/
structure ConversationMeta where
  turns_count : ℕ
  caller_pressure_level : ℚ
  victim_confusion_level : ℚ
  fraud_tactics_detected : ℕ
  conversation_flow : List Char
deriving DecidableEq

/-- The result of `analyze_two_sided_conversation` (the wall-clock
`timestamp` field is not modelled; `conversation_analysis` is `none` for
the empty sub-dictionary of `_empty_result`). -/
structure ConvResult where
  risk_score : ℚ
  is_suspicious : Bool
  confidence : ℚ
  reasoning : List Char
  conversation_analysis : Option ConversationMeta
  detected_keywords : List (List Char)
  detected_phrases : List (List Char)
deriving DecidableEq

/-- `ConversationAnalyzer._empty_result`, lines 286-297. -/
def empty_result (reason : List Char) : ConvResult :=
  { risk_score := 0
    is_suspicious := false
    confidence := 0
    reasoning := reason
    conversation_analysis := none
    detected_keywords := []
    detected_phrases := [] }

/-- `ConversationAnalyzer.analyze_two_sided_conversation`, lines 43-94.
The guard `if not transcription.strip()` short-circuits to `_empty_result`
before any segmentation or scoring.  (The broad `except` of lines 92-94
never fires in this model: every modelled operation is total.) -/
def analyze_two_sided_conversation (transcription : List Char) : ConvResult :=
  if (py_strip transcription).isEmpty then
    empty_result (s2c "No transcription to analyze")
  else
    let conversation_turns := split_conversation transcription
    let flow_analysis := analyze_conversation_flow conversation_turns
    let speaker_analysis := analyze_speaker_behaviors conversation_turns
    let fraud_indicators := detect_fraud_indicators transcription
    let risk_score := conversation_risk_score flow_analysis speaker_analysis fraud_indicators
    { risk_score := risk_score
      is_suspicious := risk_score ≥ RISK_THRESHOLD
      confidence := calculate_confidence conversation_turns fraud_indicators
      reasoning :=
        generate_conversation_reasoning flow_analysis speaker_analysis fraud_indicators risk_score
      conversation_analysis := some
        { turns_count := conversation_turns.length
          caller_pressure_level := speaker_analysis.caller_pressure
          victim_confusion_level := speaker_analysis.victim_confusion
          fraud_tactics_detected := fraud_indicators.tactics_count
          conversation_flow := flow_analysis.flow_type }
      detected_keywords := fraud_indicators.keywords
      detected_phrases := fraud_indicators.phrases }

/-! ## Helper lemmas -/

theorem py_min_le_right (x y : ℚ) : py_min x y ≤ y := by
  unfold py_min; split_ifs with h
  · exact h
  · exact le_refl y

theorem py_min_nonneg {x y : ℚ} (hx : 0 ≤ x) (hy : 0 ≤ y) : 0 ≤ py_min x y := by
  unfold py_min; split_ifs <;> assumption

theorem le_py_min {z x y : ℚ} (hx : z ≤ x) (hy : z ≤ y) : z ≤ py_min x y := by
  unfold py_min; split_ifs <;> assumption

/-- Sum of an optional singleton prepended by append. -/
theorem sum_if_append (c : Bool) (w : ℚ) (rest : List ℚ) :
    ((if c then [w] else []) ++ rest).sum = (if c then w else 0) + rest.sum := by
  cases c <;> simp

/-- Emptiness of an optional singleton prepended by append. -/
theorem isEmpty_if_append (c : Bool) (w : ℚ) (rest : List ℚ) :
    ((if c then [w] else []) ++ rest).isEmpty = (!c && rest.isEmpty) := by
  cases c <;> simp [List.isEmpty]

/-- Members of an optional singleton list. -/
theorem mem_if_single {x w : ℚ} {c : Bool} (h : x ∈ (if c then [w] else [])) : x = w := by
  cases c <;> simp_all

/-- `lower_str` distributes over append. -/
theorem lower_str_append (a b : List Char) :
    lower_str (a ++ b) = lower_str a ++ lower_str b := by
  simp [lower_str]

/-- Substring containment survives appending on the right. -/
theorem is_sub_append_right {n h : List Char} (k : List Char)
    (hs : is_sub n h = true) : is_sub n (h ++ k) = true := by
  induction h with
  | nil =>
    have hn : n = [] := by
      rw [is_sub] at hs
      have := List.isPrefixOf_iff_prefix.mp hs
      simpa using List.prefix_nil.mp this
    subst hn
    cases k with
    | nil => exact hs
    | cons c cs =>
      rw [List.nil_append, is_sub]
      simp [ List.isPrefixOf_iff_prefix]
  | cons c cs ih =>
    rw [is_sub] at hs
    simp only [Bool.or_eq_true] at hs
    rw [List.cons_append, is_sub]
    simp only [Bool.or_eq_true]
    rcases hs with hs | hs
    · left
      rw [ List.isPrefixOf_iff_prefix] at hs ⊢
      exact hs.trans (List.prefix_append _ _)
    · right
      exact ih hs

/-- Filtering with a pointwise weaker predicate keeps at least as many
elements. -/
theorem filter_length_mono {α : Type} (l : List α) (p q : α → Bool)
    (hpq : ∀ a, p a = true → q a = true) :
    (l.filter p).length ≤ (l.filter q).length := by
  induction l with
  | nil => simp
  | cons a as ih =>
    by_cases hp : p a = true
    · rw [List.filter_cons_of_pos hp, List.filter_cons_of_pos (hpq a hp)]
      simpa using ih
    · rw [List.filter_cons_of_neg (by simpa using hp)]
      by_cases hq : q a = true
      · rw [List.filter_cons_of_pos hq]
        exact ih.trans (by simp)
      · rw [List.filter_cons_of_neg (by simpa using hq)]
        exact ih

/-! ## C1 -/

/-- C1 counterexample: on the bundle returned for empty audio (all feature
dictionaries empty), `calculate_audio_risk_score` is 0.65, not 0.0 — the
`.get(key, 0)` defaults trigger the low-RMS (0.2), low-dynamic-range (0.15),
low-centroid (0.1), low-HNR (0.1) and low-speech-rate (0.1) factors. -/
theorem C1_empty_risk_counterexample :
    calculate_audio_risk_score empty_features = 13 / 20 ∧ (13 / 20 : ℚ) ≠ 0 := by
  constructor
  · norm_num [calculate_audio_risk_score, audio_risk_factors, empty_features, trig_rms,
      trig_dynamic_range, trig_spectral_centroid, trig_jitter, trig_shimmer, trig_hnr,
      trig_speech_rate, trig_pause_ratio, py_min]
  · norm_num

/-- C1 (amended): for empty audio, `extract_features` returns the bundle
with duration 0 and every sub-feature dictionary empty, but applying
`calculate_audio_risk_score` to that bundle yields 0.65 (not 0.0), because
the absent features default to 0 and trigger five factor rows. -/
theorem C1_extract_empty (nonempty_path : List ℚ → ℕ → AudioFeatures) (sample_rate : ℕ) :
    extract_features nonempty_path [] sample_rate = empty_features ∧
      empty_features.duration = 0 ∧
      empty_features.volume_stats = ⟨none, none, none, none, none, none⟩ ∧
      empty_features.frequency_stats = ⟨none, none, none, none⟩ ∧
      empty_features.voice_quality = ⟨none, none, none, none⟩ ∧
      empty_features.temporal_features = ⟨none, none⟩ ∧
      calculate_audio_risk_score empty_features = 13 / 20 := by
  refine ⟨by simp [extract_features], rfl, rfl, rfl, rfl, rfl, ?_⟩
  norm_num [calculate_audio_risk_score, audio_risk_factors, empty_features, trig_rms,
    trig_dynamic_range, trig_spectral_centroid, trig_jitter, trig_shimmer, trig_hnr,
    trig_speech_rate, trig_pause_ratio, py_min]

/-! ## C2 -/

/-- C2 counterexample: on the example sequence given by the specification
[0.3, 0.8, 0.85, 0.4, 0.9] against threshold 0.7, the code logs an alert at
every above-threshold tick — three alerts, while the edge-triggered policy
of the claim fires two. -/
theorem C2_level_counterexample :
    process_ticks (7 / 10) [3/10, 8/10, 85/100, 4/10, 9/10] = 3 ∧
      edge_alert_count (7 / 10) [3/10, 8/10, 85/100, 4/10, 9/10] false = 2 ∧
      (3 : ℕ) ≠ 2 := by
  refine ⟨?_, ?_, by norm_num⟩
  · norm_num [process_ticks, alert_fires]
  · norm_num [edge_alert_count]

/-- C2 (amended): the alert of `_handle_real_time_result` is level-triggered
with a strict comparison — one alert per tick whose fused risk strictly
exceeds the threshold, with no memory of the previous tick; a tick exactly
at the threshold never fires. -/
theorem C2_level_triggered :
    (∀ (threshold : ℚ) (ticks : List ℚ),
        process_ticks threshold ticks =
          List.countP (fun r => alert_fires threshold r) ticks) ∧
      ∀ threshold : ℚ, alert_fires threshold threshold = false := by
  constructor
  · intro threshold ticks
    induction ticks with
    | nil => simp [process_ticks]
    | cons r rest ih =>
      rw [process_ticks, List.countP_cons, ih]
      cases h : alert_fires threshold r
      · simp [h]
      · simp [h]
        omega
  · intro threshold
    simp [alert_fires]

/-! ## C3 -/

/-- C3 counterexample: a single chunk one sample longer than the configured
maximum-duration cap (300 s × 16000 Hz) is retained whole — the buffer ends
up above the cap and nothing is evicted. -/
theorem C3_unbounded_counterexample :
    (run_chunks [List.replicate (buffer_cap + 1) (0 : ℚ)]).length = buffer_cap + 1 ∧
      buffer_cap < buffer_cap + 1 := by
  constructor
  · simp [run_chunks, append_chunk]
  · omega

/-- Folding `append_chunk` concatenates. -/
theorem run_chunks_from (chunks : List (List ℚ)) (buf : List ℚ) :
    chunks.foldl append_chunk buf = buf ++ chunks.flatten := by
  induction chunks generalizing buf with
  | nil => simp
  | cons c cs ih => simp [append_chunk, ih, List.append_assoc]

/-- C3 (amended): the session audio buffer of `call_detector.py` is
unbounded — after any sequence of chunk arrivals it is exactly the
concatenation of all chunks in arrival order (no cap, no eviction), and its
length is the total number of appended samples.  (The separate
`python_server.py` WebSocket path does use a bounded 3-second deque; the
session buffer cited by the claim does not.) -/
theorem C3_buffer_is_concatenation (chunks : List (List ℚ)) :
    run_chunks chunks = chunks.flatten ∧
      (run_chunks chunks).length = (chunks.map List.length).sum := by
  have h : run_chunks chunks = chunks.flatten := by
    unfold run_chunks
    simpa using run_chunks_from chunks []
  refine ⟨h, ?_⟩
  rw [h]
  induction chunks with
  | nil => simp
  | cons c cs ih => simp [ih]

/-! ## C4 -/

/-- C4 counterexample: with the oracle unavailable, the combined risk of the
transcript `"send money"` is 0.28 = 0.7 × 0.4, not the rule-based risk 0.4
alone — the 0.7 weight still applies when the oracle contributes nothing. -/
theorem C4_oracle_unavailable_counterexample :
    (combine_analyses (rule_based_analysis (s2c "send money")) ml_unavailable).risk_score
        = 7 / 25 ∧
      (rule_based_analysis (s2c "send money")).rule_risk_score = 2 / 5 ∧
      ((7 : ℚ) / 25 ≠ 2 / 5) := by
  have h1 : keyword_matches_of (s2c "send money") = [] := by decide
  have h2 : phrase_matches_of (s2c "send money") = [s2c "send money"] := by decide
  have h3 : trigger_matches_of (s2c "send money") = [] := by decide
  refine ⟨?_, ?_, by norm_num⟩ <;>
  · simp only [combine_analyses, rule_based_analysis, ml_unavailable, h1, h2, h3]
    norm_num [py_min, KEYWORD_WEIGHT, PHRASE_WEIGHT, EMOTIONAL_WEIGHT]

/-- C4 (amended): `_combine_analyses` always blends with weights 0.7/0.3;
when the oracle is unavailable its term is 0, so the combined risk is
0.7 × rule risk — which equals the rule-based risk alone only when that
risk is 0. -/
theorem C4_blend_weights (rule : RuleAnalysis) (ml : MLAnalysis) :
    (combine_analyses rule ml).risk_score =
        rule.rule_risk_score * 0.7 + ml.ml_risk_score * 0.3 ∧
      (combine_analyses rule ml_unavailable).risk_score = rule.rule_risk_score * 0.7 ∧
      ((combine_analyses rule ml_unavailable).risk_score = rule.rule_risk_score ↔
        rule.rule_risk_score = 0) := by
  refine ⟨rfl, ?_, ?_⟩
  · simp [combine_analyses, ml_unavailable]
  · simp only [combine_analyses, ml_unavailable]
    constructor
    · intro h
      simp only at h
      linarith
    · intro h
      simp only [h]
      ring

/-- Witness for `C4_blend_weights` at a concrete rule analysis. -/
theorem C4_blend_weights_witness :
    (combine_analyses (rule_based_analysis (s2c "tax police deadline")) ml_unavailable).risk_score
      = (rule_based_analysis (s2c "tax police deadline")).rule_risk_score * 0.7 :=
  (C4_blend_weights (rule_based_analysis (s2c "tax police deadline")) ml_unavailable).2.1

/-! ## C5 -/

/-- C5 counterexample: the final verdict uses a strict comparison, so a
fused risk exactly at the threshold is not flagged; and the LLM-side
`is_suspicious` is not determined by fused risk and threshold alone — two
transcripts with identical combined risk 0.56 get different verdicts
because one matched two suspicious phrases. -/
theorem C5_threshold_counterexample :
    is_fraud (3 / 5) (3 / 5) = false ∧ ((3 : ℚ) / 5 ≥ 3 / 5) ∧
      (combine_analyses
          (rule_based_analysis (s2c "keep this confidential for security purposes"))
          ml_unavailable).risk_score =
        (combine_analyses (rule_based_analysis (s2c "tax police deadline"))
          ml_unavailable).risk_score ∧
      (combine_analyses
          (rule_based_analysis (s2c "keep this confidential for security purposes"))
          ml_unavailable).is_suspicious = true ∧
      (combine_analyses (rule_based_analysis (s2c "tax police deadline"))
          ml_unavailable).is_suspicious = false := by
  have hA1 : keyword_matches_of (s2c "keep this confidential for security purposes") = [] := by
    decide
  have hA2 : phrase_matches_of (s2c "keep this confidential for security purposes") =
      [s2c "keep this confidential", s2c "for security purposes"] := by decide
  have hA3 : trigger_matches_of (s2c "keep this confidential for security purposes") = [] := by
    decide
  have hB1 : keyword_matches_of (s2c "tax police deadline") = [s2c "tax", s2c "police"] := by
    decide
  have hB2 : phrase_matches_of (s2c "tax police deadline") = [] := by decide
  have hB3 : trigger_matches_of (s2c "tax police deadline") = [s2c "deadline"] := by decide
  refine ⟨?_, by norm_num, ?_, ?_, ?_⟩
  · simp only [is_fraud]
    norm_num
  all_goals
    simp only [combine_analyses, rule_based_analysis, ml_unavailable, hA1, hA2, hA3, hB1,
      hB2, hB3]
    norm_num [py_min, KEYWORD_WEIGHT, PHRASE_WEIGHT, EMOTIONAL_WEIGHT, MEDIUM_RISK_THRESHOLD]

/-- C5 (amended): the final verdict is `is_fraud = (fused risk > threshold)`
— strict, deterministic and monotone in the fused risk; the LLM-side
`is_suspicious` additionally consults the keyword and phrase counts, so it
is not a function of fused risk and threshold alone. -/
theorem C5_verdict_characterization :
    (∀ final_risk threshold : ℚ,
        is_fraud final_risk threshold = true ↔ threshold < final_risk) ∧
      (∀ threshold : ℚ, is_fraud threshold threshold = false) ∧
      (∀ r1 r2 threshold : ℚ,
        r1 ≤ r2 → is_fraud r1 threshold = true → is_fraud r2 threshold = true) ∧
      (∀ (rule : RuleAnalysis) (ml : MLAnalysis),
        (combine_analyses rule ml).is_suspicious =
          ((combine_analyses rule ml).risk_score > MEDIUM_RISK_THRESHOLD ||
            rule.keyword_count ≥ 3 || rule.phrase_count ≥ 2)) := by
  refine ⟨?_, ?_, ?_, ?_⟩
  · intro final_risk threshold
    simp [is_fraud]
  · intro threshold
    simp [is_fraud]
  · intro r1 r2 threshold h12 h1
    simp only [is_fraud, gt_iff_lt, decide_eq_true_eq] at h1 ⊢
    exact lt_of_lt_of_le h1 h12
  · intro rule ml
    rfl

/-- Witness for `C5_verdict_characterization` at concrete inputs. -/
theorem C5_verdict_witness : is_fraud 1 (3 / 5) = true :=
  C5_verdict_characterization.2.2.1 (7 / 10) 1 (3 / 5) (by norm_num)
    ((C5_verdict_characterization.1 (7 / 10) (3 / 5)).mpr (by norm_num))

/-! ## C6 -/

/-- Sum of an optional singleton. -/
theorem sum_if_single (c : Bool) (w : ℚ) :
    (if c then [w] else []).sum = if c then w else 0 := by
  cases c <;> simp

/-- Emptiness of an optional singleton. -/
theorem isEmpty_if_single (c : Bool) (w : ℚ) :
    (if c then [w] else []).isEmpty = !c := by
  cases c <;> simp [List.isEmpty]

/-- The risk-factor list sums to the weighted sum of the trigger table. -/
theorem audio_sum_eq (f : AudioFeatures) :
    (audio_risk_factors f).sum = audio_weighted_sum f := by
  unfold audio_risk_factors audio_weighted_sum
  simp only [List.sum_append, sum_if_single]

/-- Emptiness of an append. -/
theorem isEmpty_append (l1 l2 : List ℚ) :
    (l1 ++ l2).isEmpty = (l1.isEmpty && l2.isEmpty) := by
  cases l1 <;> simp [List.isEmpty]

/-- The risk-factor list is empty exactly when no trigger fires. -/
theorem audio_factors_empty_iff (f : AudioFeatures) :
    (audio_risk_factors f).isEmpty = no_trigger f := by
  unfold audio_risk_factors no_trigger
  simp only [isEmpty_append, isEmpty_if_single, Bool.and_assoc]

/-- Every element of the risk-factor list is non-negative. -/
theorem audio_factors_nonneg (f : AudioFeatures) :
    ∀ x ∈ audio_risk_factors f, (0 : ℚ) ≤ x := by
  intro x hx
  unfold audio_risk_factors at hx
  simp only [List.mem_append] at hx
  rcases hx with ((((((h | h) | h) | h) | h) | h) | h) | h <;>
    rw [mem_if_single h] <;> norm_num

/-- C6: `calculate_audio_risk_score` equals the clamped weighted sum of the
eight-row trigger table, always lies in [0, 1], and is exactly 0 when no
trigger condition holds. -/
theorem C6_risk_from_features (f : AudioFeatures) :
    calculate_audio_risk_score f = py_min (audio_weighted_sum f) 1 ∧
      0 ≤ calculate_audio_risk_score f ∧ calculate_audio_risk_score f ≤ 1 ∧
      (no_trigger f = true → calculate_audio_risk_score f = 0) := by
  have hsum := audio_sum_eq f
  have hnn : 0 ≤ (audio_risk_factors f).sum := List.sum_nonneg (audio_factors_nonneg f)
  by_cases hq : (audio_risk_factors f).isEmpty = true
  · have hnil : audio_risk_factors f = [] := List.isEmpty_iff.mp hq
    have hws : audio_weighted_sum f = 0 := by rw [← hsum, hnil]; simp
    have hrisk : calculate_audio_risk_score f = 0 := by
      unfold calculate_audio_risk_score
      rw [if_pos hq]
    refine ⟨?_, ?_, ?_, fun _ => hrisk⟩
    · rw [hrisk, hws]; simp [py_min]
    · rw [hrisk]
    · rw [hrisk]; norm_num
  · have hrisk : calculate_audio_risk_score f = py_min (audio_risk_factors f).sum 1 := by
      unfold calculate_audio_risk_score
      rw [if_neg hq]
    refine ⟨by rw [hrisk, hsum], ?_, ?_, ?_⟩
    · rw [hrisk]; exact py_min_nonneg hnn (by norm_num)
    · rw [hrisk]; exact py_min_le_right _ _
    · intro hnt
      exact absurd ((audio_factors_empty_iff f).trans hnt) hq

/-- Witness for `C6_risk_from_features`: a fully populated bundle on which
no trigger fires has risk exactly 0. -/
theorem C6_risk_witness :
    no_trigger
        { volume_stats := ⟨some 0.5, some 0.5, some 0.5, some 0.1, some 0.3, some 0.1⟩
          frequency_stats := ⟨some 1000, some 200, some 2000, some 440⟩
          voice_quality := ⟨some 100, some 0.01, some 0.05, some 20⟩
          temporal_features := ⟨some 4, some 0.2⟩
          duration := 1 } = true ∧
      calculate_audio_risk_score
        { volume_stats := ⟨some 0.5, some 0.5, some 0.5, some 0.1, some 0.3, some 0.1⟩
          frequency_stats := ⟨some 1000, some 200, some 2000, some 440⟩
          voice_quality := ⟨some 100, some 0.01, some 0.05, some 20⟩
          temporal_features := ⟨some 4, some 0.2⟩
          duration := 1 } = 0 := by
  have hnt : no_trigger
      { volume_stats := ⟨some 0.5, some 0.5, some 0.5, some 0.1, some 0.3, some 0.1⟩
        frequency_stats := ⟨some 1000, some 200, some 2000, some 440⟩
        voice_quality := ⟨some 100, some 0.01, some 0.05, some 20⟩
        temporal_features := ⟨some 4, some 0.2⟩
        duration := 1 } = true := by
    norm_num [no_trigger, trig_rms, trig_dynamic_range, trig_spectral_centroid, trig_jitter,
      trig_shimmer, trig_hnr, trig_speech_rate, trig_pause_ratio]
  exact ⟨hnt, (C6_risk_from_features _).2.2.2 hnt⟩

/-! ## C8 -/

/-- C8: an empty or whitespace-only transcript short-circuits to the fixed
empty result — risk 0, confidence 0, the fixed reasoning string
`"No transcription to analyze"`, and no keyword or phrase matches. -/
theorem C8_empty_transcript (t : List Char) (h : py_strip t = []) :
    analyze_two_sided_conversation t = empty_result (s2c "No transcription to analyze") ∧
      (analyze_two_sided_conversation t).risk_score = 0 ∧
      (analyze_two_sided_conversation t).confidence = 0 ∧
      (analyze_two_sided_conversation t).reasoning = s2c "No transcription to analyze" ∧
      (analyze_two_sided_conversation t).detected_keywords = [] ∧
      (analyze_two_sided_conversation t).detected_phrases = [] := by
  have hb : (py_strip t).isEmpty = true := by rw [h]; rfl
  have ha : analyze_two_sided_conversation t =
      empty_result (s2c "No transcription to analyze") := by
    unfold analyze_two_sided_conversation
    rw [if_pos hb]
  exact ⟨ha, by rw [ha]; rfl, by rw [ha]; rfl, by rw [ha]; rfl, by rw [ha]; rfl,
    by rw [ha]; rfl⟩

/-- Witness for `C8_empty_transcript` at a whitespace-only transcript. -/
theorem C8_empty_transcript_witness :
    py_strip (s2c " \t ") = [] ∧
      analyze_two_sided_conversation (s2c " \t ") =
        empty_result (s2c "No transcription to analyze") :=
  ⟨by decide, (C8_empty_transcript (s2c " \t ") (by decide)).1⟩

/-! ## C10 -/

/-- The confidence formula is bounded below by its base 0.6 and above by
the clamp at 1. -/
theorem calculate_confidence_bounds (turns : List Turn) (ind : FraudIndicators) :
    (3 : ℚ) / 5 ≤ calculate_confidence turns ind ∧ calculate_confidence turns ind ≤ 1 := by
  unfold calculate_confidence py_min
  split_ifs <;> norm_num

/-- C10: for a non-empty transcript the returned confidence lies in
[0.6, 1] — base 0.6 plus non-negative bonuses, clamped at 1. -/
theorem C10_confidence_bounds (t : List Char) (h : py_strip t ≠ []) :
    (3 : ℚ) / 5 ≤ (analyze_two_sided_conversation t).confidence ∧
      (analyze_two_sided_conversation t).confidence ≤ 1 := by
  have hb : ¬((py_strip t).isEmpty = true) := by
    cases hq : py_strip t with
    | nil => exact absurd hq h
    | cons a as => simp
  unfold analyze_two_sided_conversation
  rw [if_neg hb]
  exact calculate_confidence_bounds _ _

/-- Witness for `C10_confidence_bounds` at a concrete transcript. -/
theorem C10_confidence_witness :
    py_strip (s2c "hi") ≠ [] ∧
      ((3 : ℚ) / 5 ≤ (analyze_two_sided_conversation (s2c "hi")).confidence ∧
        (analyze_two_sided_conversation (s2c "hi")).confidence ≤ 1) :=
  ⟨by decide, C10_confidence_bounds (s2c "hi") (by decide)⟩

/-! ## C9 -/

/-- Projection of the non-empty branch of `analyze_two_sided_conversation`
onto its risk score. -/
theorem analyze_risk_eq (t : List Char) (h : (py_strip t).isEmpty = false) :
    (analyze_two_sided_conversation t).risk_score =
      conversation_risk_score (analyze_conversation_flow (split_conversation t))
        (analyze_speaker_behaviors (split_conversation t)) (detect_fraud_indicators t) := by
  unfold analyze_two_sided_conversation
  rw [if_neg (by simp [h])]

/-- The transcript `"hello. wait"` scores 0.2: its second sentence is a
victim turn containing the confusion word `wait`. -/
theorem risk_hello_wait :
    (analyze_two_sided_conversation (s2c "hello. wait")).risk_score = 1 / 5 := by
  have hsplit : split_conversation (s2c "hello. wait") =
      [⟨s2c "caller", s2c "hello", 1⟩, ⟨s2c "victim", s2c "wait", 2⟩] := by decide
  have hflow : analyze_conversation_flow
      [⟨s2c "caller", s2c "hello", 1⟩, ⟨s2c "victim", s2c "wait", 2⟩] =
      ⟨s2c "normal", false⟩ := by decide
  have hct : caller_turns_of
      [⟨s2c "caller", s2c "hello", 1⟩, ⟨s2c "victim", s2c "wait", 2⟩] =
      [⟨s2c "caller", s2c "hello", 1⟩] := by decide
  have hvt : victim_turns_of
      [⟨s2c "caller", s2c "hello", 1⟩, ⟨s2c "victim", s2c "wait", 2⟩] =
      [⟨s2c "victim", s2c "wait", 2⟩] := by decide
  have hch : pressure_hits [⟨s2c "caller", s2c "hello", 1⟩] caller_pressure_words = 0 := by
    decide
  have hvh : pressure_hits [⟨s2c "victim", s2c "wait", 2⟩] victim_confusion_words = 1 := by
    decide
  have hind : detect_fraud_indicators (s2c "hello. wait") = ⟨[], [], 0, 0⟩ := by decide
  have hsp : analyze_speaker_behaviors
      [⟨s2c "caller", s2c "hello", 1⟩, ⟨s2c "victim", s2c "wait", 2⟩] =
      ⟨0, 1⟩ := by
    simp only [analyze_speaker_behaviors, hct, hvt, hch, hvh]
    norm_num [behavior_score, py_min, SpeakerAnalysis.mk.injEq]
  rw [analyze_risk_eq _ (by decide), hsplit, hflow, hsp, hind]
  unfold conversation_risk_score
  rw [if_neg (by decide), if_neg (by decide), if_neg (by decide)]
  norm_num [py_min]

/-- The transcript `"hello. wataxit"` scores 0.05: the inserted keyword
`tax` is detected, but the confusion word `wait` no longer matches. -/
theorem risk_hello_wataxit :
    (analyze_two_sided_conversation (s2c "hello. wataxit")).risk_score = 1 / 20 := by
  have hsplit : split_conversation (s2c "hello. wataxit") =
      [⟨s2c "caller", s2c "hello", 1⟩, ⟨s2c "victim", s2c "wataxit", 2⟩] := by decide
  have hflow : analyze_conversation_flow
      [⟨s2c "caller", s2c "hello", 1⟩, ⟨s2c "victim", s2c "wataxit", 2⟩] =
      ⟨s2c "normal", false⟩ := by decide
  have hct : caller_turns_of
      [⟨s2c "caller", s2c "hello", 1⟩, ⟨s2c "victim", s2c "wataxit", 2⟩] =
      [⟨s2c "caller", s2c "hello", 1⟩] := by decide
  have hvt : victim_turns_of
      [⟨s2c "caller", s2c "hello", 1⟩, ⟨s2c "victim", s2c "wataxit", 2⟩] =
      [⟨s2c "victim", s2c "wataxit", 2⟩] := by decide
  have hch : pressure_hits [⟨s2c "caller", s2c "hello", 1⟩] caller_pressure_words = 0 := by
    decide
  have hvh : pressure_hits [⟨s2c "victim", s2c "wataxit", 2⟩] victim_confusion_words = 0 := by
    decide
  have hind : detect_fraud_indicators (s2c "hello. wataxit") = ⟨[s2c "tax"], [], 0, 0⟩ := by
    decide
  have hsp : analyze_speaker_behaviors
      [⟨s2c "caller", s2c "hello", 1⟩, ⟨s2c "victim", s2c "wataxit", 2⟩] =
      ⟨0, 0⟩ := by
    simp only [analyze_speaker_behaviors, hct, hvt, hch, hvh]
    norm_num [behavior_score, py_min, SpeakerAnalysis.mk.injEq]
  rw [analyze_risk_eq _ (by decide), hsplit, hflow, hsp, hind]
  unfold conversation_risk_score
  rw [if_neg (by decide), if_neg (by decide), if_neg (by decide)]
  norm_num [py_min]

/-- C9 counterexample: inserting one more occurrence of the configured
fraud keyword `tax` into `"hello. wait"` (inside its second word, giving
`"hello. wataxit"`) strictly decreases the conversation risk from 0.2 to
0.05 — the insertion destroys the `wait` confusion-word match, which
outweighs the new keyword. -/
theorem C9_insertion_counterexample :
    s2c "hello. wataxit" = s2c "hello. wa" ++ s2c "tax" ++ s2c "it" ∧
      s2c "tax" ∈ FRAUD_KEYWORDS ∧
      (analyze_two_sided_conversation (s2c "hello. wataxit")).risk_score <
        (analyze_two_sided_conversation (s2c "hello. wait")).risk_score := by
  refine ⟨by decide, by decide, ?_⟩
  rw [risk_hello_wataxit, risk_hello_wait]
  norm_num

/-- `is_sub` finds the needle appended at the end. -/
theorem is_sub_self (n : List Char) : is_sub n n = true := by
  cases n with
  | nil => rfl
  | cons c cs =>
    rw [is_sub]
    simp [ List.isPrefixOf_iff_prefix]

/-- A needle appended on the right is always found. -/
theorem is_sub_append_self (h n : List Char) : is_sub n (h ++ n) = true := by
  induction h with
  | nil => simpa using is_sub_self n
  | cons c cs ih =>
    rw [List.cons_append, is_sub]
    simp only [Bool.or_eq_true]
    right
    exact ih

/-- C9 (amended): the detected-fraud-keyword list is monotone under
appending one more occurrence of a configured keyword — the appended
keyword is detected and no previous match is lost; the full conversation
risk, however, is not monotone under keyword insertion (see the
counterexample), because an insertion can destroy other substring matches
and shift the alternating turn assignment. -/
theorem C9_keyword_append_monotone (t kw : List Char) (hkw : kw ∈ FRAUD_KEYWORDS) :
    (detect_fraud_indicators t).keywords.length ≤
        (detect_fraud_indicators (t ++ kw)).keywords.length ∧
      kw ∈ (detect_fraud_indicators (t ++ kw)).keywords := by
  constructor
  · simp only [detect_fraud_indicators]
    refine filter_length_mono _ _ _ ?_
    intro a ha
    rw [lower_str_append]
    exact is_sub_append_right _ ha
  · simp only [detect_fraud_indicators]
    refine List.mem_filter.mpr ⟨hkw, ?_⟩
    rw [lower_str_append]
    exact is_sub_append_self _ _

/-- Witness for `C9_keyword_append_monotone` at a concrete transcript and
keyword. -/
theorem C9_keyword_append_monotone_witness :
    s2c "tax" ∈ FRAUD_KEYWORDS ∧
      (detect_fraud_indicators (s2c "hello")).keywords.length ≤
        (detect_fraud_indicators (s2c "hello" ++ s2c "tax")).keywords.length :=
  ⟨by decide, (C9_keyword_append_monotone (s2c "hello") (s2c "tax") (by decide)).1⟩

/-! ## C7 -/

/-- The lazy capture only consumes characters of its input. -/
theorem capture_until_length (stops : List (List Char)) :
    ∀ rest cap r, capture_until stops rest = some (cap, r) → r.length ≤ rest.length := by
  intro rest
  induction rest with
  | nil =>
    intro cap r h
    rw [capture_until, if_pos (by simp [stop_here, dollar_ok])] at h
    simp only [Option.some.injEq, Prod.mk.injEq] at h
    rw [← h.2]
  | cons c cs ih =>
    intro cap r h
    rw [capture_until] at h
    by_cases hs : stop_here stops (c :: cs) = true
    · rw [if_pos hs] at h
      simp only [Option.some.injEq, Prod.mk.injEq] at h
      rw [← h.2]
    · rw [if_neg hs] at h
      by_cases hn : c = '\n'
      · rw [if_pos hn] at h
        exact absurd h (by simp)
      · rw [if_neg hn] at h
        rw [Option.map_eq_some'] at h
        obtain ⟨⟨cap', r'⟩, hc, he⟩ := h
        simp only [Prod.mk.injEq] at he
        rw [← he.2]
        exact (ih cap' r' hc).trans (by simp)

/-- A successful pattern match strictly consumes input. -/
theorem match_label_at_rest_length (stops : List (List Char)) :
    ∀ labels s lab cap rest,
      match_label_at stops labels s = some (lab, cap, rest) → rest.length < s.length := by
  intro labels
  induction labels with
  | nil => intro s lab cap rest h; exact absurd h (by simp [match_label_at])
  | cons l ls ih =>
    intro s lab cap rest h
    rw [match_label_at] at h
    split_ifs at h with hp
    · cases hc : capture_until stops ((s.drop (l.length + 1)).dropWhile is_space) with
      | none => rw [hc] at h; exact ih s lab cap rest h
      | some p =>
        obtain ⟨cap', r'⟩ := p
        rw [hc] at h
        simp only [Option.some.injEq, Prod.mk.injEq] at h
        have h1 : r'.length ≤ ((s.drop (l.length + 1)).dropWhile is_space).length :=
          capture_until_length stops _ _ _ hc
        have h2 : ((s.drop (l.length + 1)).dropWhile is_space).length ≤
            (s.drop (l.length + 1)).length :=
          List.IsSuffix.length_le (List.dropWhile_suffix _)
        have h3 : (s.drop (l.length + 1)).length = s.length - (l.length + 1) :=
          List.length_drop _ _
        have h4 : l.length + 1 ≤ s.length := by
          have := List.IsPrefix.length_le ( List.isPrefixOf_iff_prefix.mp hp)
          simpa using this
        rw [← h.2.2]
        omega
    · exact ih s lab cap rest h

/-- Any fuel at least the input length yields the canonical scan: the fuel
in `find_all` is only a recursion bound, not part of the semantics. -/
theorem find_all_fuel_irrelevant (labels stops : List (List Char)) :
    ∀ fuel s, s.length ≤ fuel →
      find_all_fuel labels stops fuel s = find_all labels stops s := by
  have key : ∀ fuel, ∀ s : List Char, s.length ≤ fuel →
      find_all_fuel labels stops fuel s = find_all_fuel labels stops s.length s := by
    intro fuel
    induction fuel using Nat.strong_induction_on with
    | _ fuel ih =>
      intro s hs
      match fuel, s with
      | 0, s =>
        have : s = [] := List.length_eq_zero.mp (Nat.le_zero.mp hs)
        subst this
        rfl
      | fuel + 1, [] => rfl
      | fuel + 1, c :: cs =>
        rw [find_all_fuel]
        have hlen : (c :: cs).length = cs.length + 1 := rfl
        cases hm : match_label_at stops labels (c :: cs) with
        | some p =>
          obtain ⟨lab, cap, rest⟩ := p
          have hrest : rest.length < cs.length + 1 :=
            hlen ▸ match_label_at_rest_length stops labels _ _ _ _ hm
          have hf : rest.length ≤ fuel := by
            have : cs.length + 1 ≤ fuel + 1 := hlen ▸ hs
            omega
          have e1 : find_all_fuel labels stops fuel rest =
              find_all_fuel labels stops rest.length rest :=
            ih fuel (by omega) rest hf
          have e2 : find_all_fuel labels stops cs.length rest =
              find_all_fuel labels stops rest.length rest :=
            ih cs.length (by omega) rest (by omega)
          simp only [hlen, find_all_fuel, hm, e1, e2]
        | none =>
          have e1 : find_all_fuel labels stops fuel cs =
              find_all_fuel labels stops cs.length cs :=
            ih fuel (by omega) cs (by
              have : cs.length + 1 ≤ fuel + 1 := hlen ▸ hs
              omega)
          simp only [hlen, find_all_fuel, hm, e1]
  intro fuel s hs
  rw [find_all, key fuel s hs]

/-- Ordering of turns by their stored number. -/
def turn_lt (a b : Turn) : Prop := a.turn_number < b.turn_number

/-- A successful match uses one of the offered labels. -/
theorem match_label_at_label (stops : List (List Char)) :
    ∀ labels s lab cap rest,
      match_label_at stops labels s = some (lab, cap, rest) → lab ∈ labels := by
  intro labels
  induction labels with
  | nil => intro s lab cap rest h; exact absurd h (by simp [match_label_at])
  | cons l ls ih =>
    intro s lab cap rest h
    rw [match_label_at] at h
    split_ifs at h with hp
    · cases hc : capture_until stops ((s.drop (l.length + 1)).dropWhile is_space) with
      | none =>
        rw [hc] at h
        exact List.mem_cons_of_mem l (ih s lab cap rest h)
      | some p =>
        obtain ⟨cap', r'⟩ := p
        rw [hc] at h
        simp only [Option.some.injEq, Prod.mk.injEq] at h
        rw [← h.1]
        exact List.mem_cons_self l ls
    · exact List.mem_cons_of_mem l (ih s lab cap rest h)

/-- Every match produced by the scan uses one of the offered labels. -/
theorem find_all_fuel_labels (labels stops : List (List Char)) :
    ∀ fuel s p, p ∈ find_all_fuel labels stops fuel s → p.1 ∈ labels := by
  intro fuel
  induction fuel with
  | zero => intro s p h; exact absurd h (by simp [find_all_fuel])
  | succ fuel ih =>
    intro s p h
    cases s with
    | nil => exact absurd h (by simp [find_all_fuel])
    | cons c cs =>
      rw [find_all_fuel] at h
      cases hm : match_label_at stops labels (c :: cs) with
      | some q =>
        obtain ⟨lab, cap, rest⟩ := q
        rw [hm] at h
        simp only [List.mem_cons] at h
        rcases h with h | h
        · rw [h]
          exact match_label_at_label stops labels _ _ _ _ hm
        · exact ih rest p h
      | none =>
        rw [hm] at h
        exact ih cs p h

/-- The labeled-turn builder appends to its accumulator, and every new turn
carries a speaker from the match list. -/
theorem append_labeled_turns_split :
    ∀ (ms : List (List Char × List Char)) (acc : List Turn),
      ∃ new : List Turn,
        append_labeled_turns ms acc = acc ++ new ∧
          ∀ t ∈ new, t.speaker ∈ ms.map Prod.fst := by
  intro ms
  induction ms with
  | nil => intro acc; exact ⟨[], by simp [append_labeled_turns], by simp⟩
  | cons m rest ih =>
    intro acc
    obtain ⟨lab, cap⟩ := m
    by_cases hemp : (py_strip cap).isEmpty = true
    · obtain ⟨new, heq, hsp⟩ := ih acc
      refine ⟨new, ?_, ?_⟩
      · rw [append_labeled_turns]
        simp only [hemp, if_pos]
        exact heq
      · intro t ht
        simp only [List.map_cons]
        exact List.mem_cons_of_mem _ (hsp t ht)
    · obtain ⟨new, heq, hsp⟩ :=
        ih (acc ++ [{ speaker := lab, text := py_strip cap, turn_number := acc.length + 1 }])
      refine ⟨{ speaker := lab, text := py_strip cap, turn_number := acc.length + 1 } :: new,
        ?_, ?_⟩
      · rw [append_labeled_turns]
        simp only [hemp, if_neg]
        rw [heq, List.append_assoc]
        rfl
      · intro t ht
        simp only [List.map_cons, List.mem_cons]
        rcases List.mem_cons.mp ht with h | h
        · left; rw [h]
        · exact Or.inr (hsp t h)

/-- The labeled-turn builder keeps turn numbers strictly increasing and
bounded by the list length. -/
theorem append_labeled_turns_invariant :
    ∀ (ms : List (List Char × List Char)) (acc : List Turn),
      List.Pairwise turn_lt acc →
      (∀ t ∈ acc, t.turn_number ≤ acc.length) →
      List.Pairwise turn_lt (append_labeled_turns ms acc) ∧
        ∀ t ∈ append_labeled_turns ms acc,
          t.turn_number ≤ (append_labeled_turns ms acc).length := by
  intro ms
  induction ms with
  | nil => intro acc h1 h2; rw [append_labeled_turns]; exact ⟨h1, h2⟩
  | cons m rest ih =>
    intro acc h1 h2
    obtain ⟨lab, cap⟩ := m
    by_cases hemp : (py_strip cap).isEmpty = true
    · rw [append_labeled_turns]
      simp only [hemp, if_pos]
      exact ih acc h1 h2
    · rw [append_labeled_turns]
      simp only [hemp, if_neg]
      refine ih _ ?_ ?_
      · rw [List.pairwise_append]
        refine ⟨h1, by simp, ?_⟩
        intro a ha b hb
        rw [List.mem_singleton] at hb
        rw [hb]
        have := h2 a ha
        simp only [turn_lt]
        omega
      · intro t ht
        rw [List.mem_append] at ht
        rcases ht with h | h
        · have := h2 t h
          simp only [List.length_append, List.length_singleton]
          omega
        · rw [List.mem_singleton] at h
          rw [h]
          simp

/-- The stable sort is the identity on a list whose turn numbers are
already strictly increasing. -/
theorem sort_by_number_eq_self :
    ∀ l : List Turn, List.Pairwise turn_lt l → sort_by_number l = l := by
  intro l
  induction l with
  | nil => intro; rfl
  | cons t ts ih =>
    intro h
    rw [List.pairwise_cons] at h
    rw [sort_by_number, ih h.2]
    cases ts with
    | nil => rfl
    | cons u us =>
      rw [insert_by_number]
      rw [if_neg]
      have := h.1 u (List.mem_cons_self u us)
      simp only [turn_lt] at this
      omega

/-- Speaker assigned by the alternating fallback matches the parity of the
stored turn number. -/
theorem alternating_turns_speaker :
    ∀ (sents : List (List Char)) (i : ℕ) (t : Turn), t ∈ alternating_turns i sents →
      t.speaker = (if (t.turn_number - 1) % 2 = 0 then s2c "caller" else s2c "victim") := by
  intro sents
  induction sents with
  | nil => intro i t ht; exact absurd ht (by simp [alternating_turns])
  | cons s rest ih =>
    intro i t ht
    rw [alternating_turns] at ht
    by_cases hemp : (py_strip s).isEmpty = true
    · rw [if_pos hemp] at ht
      exact ih (i + 1) t ht
    · rw [if_neg hemp] at ht
      rcases List.mem_cons.mp ht with h | h
      · rw [h]
        simp
      · exact ih (i + 1) t h

/-- The alternating fallback produces strictly increasing turn numbers,
all at least `i + 1`. -/
theorem alternating_turns_invariant :
    ∀ (sents : List (List Char)) (i : ℕ),
      List.Pairwise turn_lt (alternating_turns i sents) ∧
        ∀ t ∈ alternating_turns i sents, i + 1 ≤ t.turn_number := by
  intro sents
  induction sents with
  | nil => intro i; rw [alternating_turns]; exact ⟨List.Pairwise.nil, by simp⟩
  | cons s rest ih =>
    intro i
    rw [alternating_turns]
    by_cases hemp : (py_strip s).isEmpty = true
    · rw [if_pos hemp]
      obtain ⟨hp, hb⟩ := ih (i + 1)
      exact ⟨hp, fun t ht => by have := hb t ht; omega⟩
    · rw [if_neg hemp]
      obtain ⟨hp, hb⟩ := ih (i + 1)
      constructor
      · rw [List.pairwise_cons]
        refine ⟨?_, hp⟩
        intro u hu
        have := hb u hu
        simp only [turn_lt]
        omega
      · intro t ht
        rcases List.mem_cons.mp ht with h | h
        · rw [h]
        · have := hb t h
          omega

/-- Does this turn carry one of the victim-side labels? -/
def in_victim_group (t : Turn) : Bool := decide (t.speaker ∈ victim_labels)

/-- Check that all victim-side-labeled turns come after every other turn:
once a victim-side speaker appears, only victim-side speakers follow. -/
def grouped_speakers : List Turn → Bool
  | [] => true
  | t :: rest =>
    if in_victim_group t then rest.all in_victim_group else grouped_speakers rest

/-- Check the alternating-speaker shape: each turn is `caller` exactly when
its stored sentence index is even. -/
def alternation_ok (turns : List Turn) : Bool :=
  turns.all fun t =>
    decide (t.speaker =
      (if (t.turn_number - 1) % 2 = 0 then s2c "caller" else s2c "victim"))

/-- A list that is a block of non-victim turns followed by a block of
victim turns passes the grouping check. -/
theorem grouped_of_partition (A B : List Turn)
    (hA : ∀ t ∈ A, in_victim_group t = false)
    (hB : ∀ t ∈ B, in_victim_group t = true) :
    grouped_speakers (A ++ B) = true := by
  induction A with
  | nil =>
    rw [List.nil_append]
    cases B with
    | nil => rfl
    | cons b bs =>
      rw [grouped_speakers, if_pos (hB b (List.mem_cons_self b bs))]
      exact List.all_eq_true.mpr fun u hu => hB u (List.mem_cons_of_mem b hu)
  | cons a as ih =>
    rw [List.cons_append, grouped_speakers,
      if_neg (by simp [hA a (List.mem_cons_self a as)])]
    exact ih fun t ht => hA t (List.mem_cons_of_mem a ht)

/-- C7 (amended): with explicit speaker labels, `_split_conversation`
groups the output by pattern — every `caller|agent|representative` span
precedes every `victim|customer|user` span (it does not interleave them in
transcript order); without labels, speakers alternate by each sentence and its
position in the terminator split (whitespace-only and empty pieces are
skipped but still consume a position). -/
theorem C7_turn_segmentation (ts : List Char) :
    (has_labels (lower_str ts) = true →
        grouped_speakers (split_conversation ts) = true) ∧
      (has_labels (lower_str ts) = false →
        alternation_ok (split_conversation ts) = true) := by
  constructor
  · intro h
    have hbranch : split_conversation ts =
        sort_by_number
          (append_labeled_turns (find_all victim_labels victim_stops (lower_str ts))
            (append_labeled_turns (find_all caller_labels caller_stops (lower_str ts)) [])) := by
      simp only [split_conversation, h, Bool.not_true, Bool.false_eq_true, if_false]
    obtain ⟨newA, heqA, hspA⟩ :=
      append_labeled_turns_split (find_all caller_labels caller_stops (lower_str ts)) []
    have hAturns : ∀ t ∈ append_labeled_turns
        (find_all caller_labels caller_stops (lower_str ts)) [],
        in_victim_group t = false := by
      intro t ht
      rw [heqA, List.nil_append] at ht
      obtain ⟨p, hp, hfst⟩ := List.mem_map.mp (hspA t ht)
      have hmem : p.1 ∈ caller_labels :=
        find_all_fuel_labels caller_labels caller_stops (lower_str ts).length
          (lower_str ts) p hp
      rw [hfst] at hmem
      have hdisj : ∀ x ∈ caller_labels, x ∉ victim_labels := by decide
      unfold in_victim_group
      simp [hdisj _ hmem]
    obtain ⟨newB, heqB, hspB⟩ :=
      append_labeled_turns_split (find_all victim_labels victim_stops (lower_str ts))
        (append_labeled_turns (find_all caller_labels caller_stops (lower_str ts)) [])
    have hBturns : ∀ t ∈ newB, in_victim_group t = true := by
      intro t ht
      obtain ⟨p, hp, hfst⟩ := List.mem_map.mp (hspB t ht)
      have hmem : p.1 ∈ victim_labels :=
        find_all_fuel_labels victim_labels victim_stops (lower_str ts).length
          (lower_str ts) p hp
      rw [hfst] at hmem
      unfold in_victim_group
      simp [hmem]
    have h0 := append_labeled_turns_invariant
      (find_all caller_labels caller_stops (lower_str ts)) [] (by simp) (by simp)
    have hpair := (append_labeled_turns_invariant
      (find_all victim_labels victim_stops (lower_str ts)) _ h0.1 h0.2).1
    rw [hbranch, sort_by_number_eq_self _ hpair, heqB]
    exact grouped_of_partition _ _ hAturns hBturns
  · intro h
    have hbranch : split_conversation ts =
        sort_by_number (alternating_turns 0 (split_sentences ts)) := by
      simp only [split_conversation, h, Bool.not_false, if_true]
    have hpair := (alternating_turns_invariant (split_sentences ts) 0).1
    rw [hbranch, sort_by_number_eq_self _ hpair]
    rw [alternation_ok, List.all_eq_true]
    intro t ht
    simp only [decide_eq_true_eq]
    exact alternating_turns_speaker _ 0 t ht

/-- Witness for `C7_turn_segmentation` on one labeled and one unlabeled
transcript. -/
theorem C7_turn_segmentation_witness :
    has_labels (lower_str (s2c "caller: hi victim: yo")) = true ∧
      grouped_speakers (split_conversation (s2c "caller: hi victim: yo")) = true ∧
      has_labels (lower_str (s2c "a. b")) = false ∧
      alternation_ok (split_conversation (s2c "a. b")) = true :=
  ⟨by decide, (C7_turn_segmentation (s2c "caller: hi victim: yo")).1 (by decide),
    by decide, (C7_turn_segmentation (s2c "a. b")).2 (by decide)⟩

/-- C7 counterexample: in `"victim: a caller: b"` the victim span appears
first in the transcript, but the output lists the caller turn first
(pattern-grouped, not in label order of appearance); and in `".a"` the
first non-empty sentence is attributed to the victim, not the caller,
because the leading empty split piece consumes the even position. -/
theorem C7_order_counterexample :
    (split_conversation (s2c "victim: a caller: b")).map Turn.speaker =
        [s2c "caller", s2c "victim"] ∧
      ([s2c "caller", s2c "victim"] ≠ [s2c "victim", s2c "caller"]) ∧
      (split_conversation (s2c ".a")).map Turn.speaker = [s2c "victim"] := by
  exact ⟨by decide, by decide, by decide⟩
